import Mathlib

/-!
Verification of the core of `standards_registry.py` (WDGPH/standards-registry).

The Python data-model is embedded shallowly: parsed YAML/JSON documents become
the inductive type `Val` (Python `None`, booleans, integers, strings, lists and
insertion-ordered dicts), Python truthiness becomes `isTruthy`, operations that
can raise (`x[k]`, `x in y` on a non-container, `.get` on a non-dict, iteration
of a non-iterable, unhashable dict keys) return in the exception monad
`PyM := Except String`.  The filesystem is a parameter `fs : String → Option Val`
mapping each path that exists on disk to its parsed document (files that exist
are assumed well-formed; a parse error raises in the source and is outside the
claims under study).  Floating-point values and the full-Unicode case mapping of
`str.lower`/`str.upper` are not modelled; `pyCharLower`/`pyCharUpper` implement
the ASCII case mapping.
-/

/-- A parsed Python/JSON/YAML value. Dicts are insertion-ordered association
lists, like Python dicts. -/
inductive Val : Type where
  | null : Val
  | bool : Bool → Val
  | int : Int → Val
  | str : String → Val
  | list : List Val → Val
  | dict : List (Val × Val) → Val
deriving Repr

mutual
/-- Decidable equality for `Val`, by mutual structural recursion so that it
evaluates inside the kernel (structural; Python's cross-type numeric equality
such as `True == 1` is not modelled — no claim compares mixed-type keys). -/
def Val.decEq : (a b : Val) → Decidable (a = b)
  | .null, .null => isTrue rfl
  | .bool a, .bool b =>
    match instDecidableEqBool a b with
    | isTrue h => isTrue (by rw [h])
    | isFalse h => isFalse (fun hh => h (by cases hh; rfl))
  | .int a, .int b =>
    match Int.decEq a b with
    | isTrue h => isTrue (by rw [h])
    | isFalse h => isFalse (fun hh => h (by cases hh; rfl))
  | .str a, .str b =>
    match String.decEq a b with
    | isTrue h => isTrue (by rw [h])
    | isFalse h => isFalse (fun hh => h (by cases hh; rfl))
  | .list xs, .list ys =>
    match Val.decEqList xs ys with
    | isTrue h => isTrue (by rw [h])
    | isFalse h => isFalse (fun hh => h (by cases hh; rfl))
  | .dict xs, .dict ys =>
    match Val.decEqPairs xs ys with
    | isTrue h => isTrue (by rw [h])
    | isFalse h => isFalse (fun hh => h (by cases hh; rfl))
  | .null, .bool _ | .null, .int _ | .null, .str _ | .null, .list _ | .null, .dict _
  | .bool _, .null | .bool _, .int _ | .bool _, .str _ | .bool _, .list _ | .bool _, .dict _
  | .int _, .null | .int _, .bool _ | .int _, .str _ | .int _, .list _ | .int _, .dict _
  | .str _, .null | .str _, .bool _ | .str _, .int _ | .str _, .list _ | .str _, .dict _
  | .list _, .null | .list _, .bool _ | .list _, .int _ | .list _, .str _ | .list _, .dict _
  | .dict _, .null | .dict _, .bool _ | .dict _, .int _ | .dict _, .str _ | .dict _, .list _ =>
    isFalse (fun hh => by cases hh)
def Val.decEqList : (a b : List Val) → Decidable (a = b)
  | [], [] => isTrue rfl
  | x :: xs, y :: ys =>
    match Val.decEq x y, Val.decEqList xs ys with
    | isTrue h1, isTrue h2 => isTrue (by rw [h1, h2])
    | isFalse h1, _ => isFalse (fun hh => h1 (by cases hh; rfl))
    | _, isFalse h2 => isFalse (fun hh => h2 (by cases hh; rfl))
  | [], _ :: _ => isFalse (fun hh => by cases hh)
  | _ :: _, [] => isFalse (fun hh => by cases hh)
def Val.decEqPairs : (a b : List (Val × Val)) → Decidable (a = b)
  | [], [] => isTrue rfl
  | (k, v) :: xs, (k2, v2) :: ys =>
    match Val.decEq k k2, Val.decEq v v2, Val.decEqPairs xs ys with
    | isTrue h1, isTrue h2, isTrue h3 => isTrue (by rw [h1, h2, h3])
    | isFalse h1, _, _ => isFalse (fun hh => h1 (by cases hh; rfl))
    | _, isFalse h2, _ => isFalse (fun hh => h2 (by cases hh; rfl))
    | _, _, isFalse h3 => isFalse (fun hh => h3 (by cases hh; rfl))
  | [], _ :: _ => isFalse (fun hh => by cases hh)
  | _ :: _, [] => isFalse (fun hh => by cases hh)
end

instance : DecidableEq Val := Val.decEq

/-- The exception monad for Python code: `throw msg` models a raised exception
(the string names the exception class). -/
abbrev PyM := Except String

/-- Python truthiness: `bool(v)`. -/
def isTruthy : Val → Bool
  | .null => false
  | .bool b => b
  | .int n => decide (n ≠ 0)
  | .str s => decide (s ≠ "")
  | .list xs => decide (xs ≠ [])
  | .dict kvs => decide (kvs ≠ [])

/-- `needle in hay` for Python strings: substring test (the empty needle always
matches). -/
def substrB (needle hay : String) : Bool :=
  decide (needle.toList <:+: hay.toList)

instance {ε α : Type} [DecidableEq ε] [DecidableEq α] : DecidableEq (Except ε α) :=
  fun a b =>
  match a, b with
  | .ok x, .ok y =>
    match decEq x y with
    | isTrue h => isTrue (by rw [h])
    | isFalse h => isFalse (by intro hh; cases hh; exact h rfl)
  | .error x, .error y =>
    match decEq x y with
    | isTrue h => isTrue (by rw [h])
    | isFalse h => isFalse (by intro hh; cases hh; exact h rfl)
  | .ok _, .error _ => isFalse (by intro hh; cases hh)
  | .error _, .ok _ => isFalse (by intro hh; cases hh)

/-- Python `x in container` — key membership for dicts, element membership for
lists, substring for strings; anything else raises `TypeError`. -/
def pyContains (container x : Val) : PyM Bool :=
  match container with
  | .dict kvs => pure (kvs.any (fun kv => kv.1 == x))
  | .list xs => pure (xs.any (fun y => y == x))
  | .str s =>
    match x with
    | .str t => pure (substrB t s)
    | _ => throw "TypeError"
  | _ => throw "TypeError"

/-- Python `container[k]` for a string key `k`: dict lookup (`KeyError` when
missing); subscripting a non-dict with a string raises `TypeError`. -/
def getItem (v : Val) (k : String) : PyM Val :=
  match v with
  | .dict kvs =>
    match kvs.find? (fun kv => kv.1 == Val.str k) with
    | some kv => pure kv.2
    | none => throw "KeyError"
  | _ => throw "TypeError"

/-- First-match lookup in an association-list dict, with a default: the pure
core of Python `d.get(k, default)` (keys are unique in a real dict, so first
match is the match). -/
def dGet (kvs : List (Val × Val)) (k : String) (d : Val) : Val :=
  match kvs.find? (fun kv => kv.1 == Val.str k) with
  | some kv => kv.2
  | none => d

/-- Python `v.get(k, default)`: only dicts have `.get`; anything else raises
`AttributeError`. -/
def dictGet (v : Val) (k : String) (d : Val) : PyM Val :=
  match v with
  | .dict kvs => pure (dGet kvs k d)
  | _ => throw "AttributeError"

/-- Python iteration `for x in v`: lists yield elements, strings yield their
characters as one-character strings, dicts yield their keys; other values raise
`TypeError`. -/
def pyIter : Val → PyM (List Val)
  | .list xs => pure xs
  | .str s => pure (s.toList.map (fun c => Val.str (String.singleton c)))
  | .dict kvs => pure (kvs.map (fun kv => kv.1))
  | _ => throw "TypeError"

/-- Python `v.values()`: only dicts have `.values`. -/
def pyValues : Val → PyM (List Val)
  | .dict kvs => pure (kvs.map (fun kv => kv.2))
  | _ => throw "AttributeError"

/-- Python `v.keys()` materialised as a list (`list(v.keys())` is the same
list). -/
def pyKeys : Val → PyM Val
  | .dict kvs => pure (Val.list (kvs.map (fun kv => kv.1)))
  | _ => throw "AttributeError"

/-- Python `len(v)`. -/
def pyLen : Val → PyM Nat
  | .list xs => pure xs.length
  | .str s => pure s.length
  | .dict kvs => pure kvs.length
  | _ => throw "TypeError"

/-- Python `v[0]`. -/
def pySubscriptZero : Val → PyM Val
  | .list [] => throw "IndexError"
  | .list (x :: _) => pure x
  | .str s =>
    match s.toList with
    | [] => throw "IndexError"
    | c :: _ => pure (.str (String.singleton c))
  | .dict kvs =>
    match kvs.find? (fun kv => kv.1 == Val.int 0) with
    | some kv => pure kv.2
    | none => throw "KeyError"
  | _ => throw "TypeError"

/-- Python dict keys must be hashable: lists and dicts are not. -/
def hashable : Val → Bool
  | .list _ => false
  | .dict _ => false
  | _ => true

/-- Insert into an insertion-ordered dict the way Python does: an existing key
keeps its original position and gets the new value; a new key is appended. -/
def dictInsertKV (kvs : List (Val × Val)) (k v : Val) : List (Val × Val) :=
  if kvs.any (fun p => p.1 == k) then
    kvs.map (fun p => if p.1 == k then (p.1, v) else p)
  else kvs ++ [(k, v)]

/-- Python `dict(pairs)`: builds an insertion-ordered dict, raising `TypeError`
when a key is unhashable. -/
def mkDict (pairs : List (Val × Val)) : PyM Val :=
  if pairs.all (fun p => hashable p.1) then
    pure (.dict (pairs.foldl (fun acc p => dictInsertKV acc p.1 p.2) []))
  else throw "TypeError"

/-- A list comprehension with a (possibly raising) body:
`[f x for x in xs]`. -/
def mapME (f : Val → PyM Val) : List Val → PyM (List Val)
  | [] => pure []
  | x :: xs => do
    let y ← f x
    let ys ← mapME f xs
    pure (y :: ys)

/-- A filtering list comprehension with a (possibly raising) predicate:
`[x for x in xs if p x]`. -/
def filterME (p : Val → PyM Bool) : List Val → PyM (List Val)
  | [] => pure []
  | x :: xs => do
    let b ← p x
    let ys ← filterME p xs
    pure (if b then x :: ys else ys)

/-- `StandardsRegistry._get_data_records` (src/standards_registry.py lines
108-121): dispatch over the three document shapes. Falsy documents yield `[]`;
the nested shape returns `data["standard"]["data"]`; the flat shape returns
`data["data"]`; the columnar shape zips each positional record against the
field-id list (`if not fields: return []` first); anything else yields `[]` —
or raises, exactly where the Python `in` / `[...]` / `.get` operations raise. -/
def getDataRecords (data : Val) : PyM Val := do
  if isTruthy data = false then return Val.list []
  let hasStd ← pyContains data (Val.str "standard")
  let cond1 ←
    if hasStd then do
      let inner ← getItem data "standard"
      pyContains inner (Val.str "data")
    else pure false
  if cond1 then do
    let inner ← getItem data "standard"
    getItem inner "data"
  else do
    let hasData ← pyContains data (Val.str "data")
    if hasData then getItem data "data"
    else do
      let hasRecs ← pyContains data (Val.str "records")
      if hasRecs then do
        let fieldsVal ← dictGet data "fields" (Val.list [])
        let fieldItems ← pyIter fieldsVal
        let fields ← mapME (fun f => getItem f "id") fieldItems
        if fields.isEmpty then return Val.list []
        let recsVal ← getItem data "records"
        let recItems ← pyIter recsVal
        let out ← mapME
          (fun record => do
            let ri ← pyIter record
            mkDict (List.zip fields ri))
          recItems
        return Val.list out
      else return Val.list []

example : getDataRecords (Val.dict [(Val.str "data", Val.list [Val.int 1])]) =
    Except.ok (Val.list [Val.int 1]) := by decide

example : getDataRecords
    (Val.dict [(Val.str "fields", Val.list [Val.dict [(Val.str "id", Val.str "a")],
                                            Val.dict [(Val.str "id", Val.str "b")]]),
               (Val.str "records", Val.list [Val.list [Val.int 1, Val.str "x"],
                                             Val.list [Val.int 2, Val.str "y"]])]) =
    Except.ok (Val.list [Val.dict [(Val.str "a", Val.int 1), (Val.str "b", Val.str "x")],
                         Val.dict [(Val.str "a", Val.int 2), (Val.str "b", Val.str "y")]]) := by
  decide

example : getDataRecords (Val.list [Val.str "data"]) = Except.error "TypeError" := by decide

/-- The single-quote character, used by Python `repr` of strings. -/
def pyQuote : String := String.singleton (Char.ofNat 39)

mutual
/-- Python `repr(v)` (simplified: string contents are not escaped and are
always single-quoted — faithful for strings without quotes, backslashes or
control characters, which is all the claims exercise). -/
def pyRepr : Val → String
  | .null => "None"
  | .bool true => "True"
  | .bool false => "False"
  | .int n => toString n
  | .str s => pyQuote ++ s ++ pyQuote
  | .list xs => "[" ++ String.intercalate ", " (pyReprList xs) ++ "]"
  | .dict kvs => "\x7b" ++ String.intercalate ", " (pyReprPairs kvs) ++ "\x7d"
def pyReprList : List Val → List String
  | [] => []
  | v :: vs => pyRepr v :: pyReprList vs
def pyReprPairs : List (Val × Val) → List String
  | [] => []
  | (k, v) :: rest => (pyRepr k ++ ": " ++ pyRepr v) :: pyReprPairs rest
end

/-- Python `str(v)`: the string itself for strings, `repr`-style rendering for
everything else. -/
def pyStr : Val → String
  | .str s => s
  | v => pyRepr v

/-- ASCII lower-casing of one character, as Python `str.lower` acts on ASCII
(the full-Unicode case table is not modelled). -/
def pyCharLower (c : Char) : Char :=
  if 65 ≤ c.toNat ∧ c.toNat ≤ 90 then Char.ofNat (c.toNat + 32) else c

/-- ASCII upper-casing of one character, as Python `str.upper` acts on ASCII. -/
def pyCharUpper (c : Char) : Char :=
  if 97 ≤ c.toNat ∧ c.toNat ≤ 122 then Char.ofNat (c.toNat - 32) else c

/-- Python `s.lower()` (ASCII fragment). -/
def pyLower (s : String) : String := String.mk (s.toList.map pyCharLower)

/-- Python `s.upper()` (ASCII fragment). -/
def pyUpper (s : String) : String := String.mk (s.toList.map pyCharUpper)

/-- `pathlib` `/`-joining of path strings: empty segments are dropped, exactly
as `PurePosixPath` drops them. -/
def pjoin (a b : String) : String :=
  if b = "" then a else if a = "" then b else a ++ "/" ++ b

/-- The `Standard` dataclass (src/standards_registry.py lines 7-17).  Fields
hold whatever `Val` the manifest entry supplied (Python stores them untyped),
with the `item.get` defaults of `_load_registry`. -/
structure Standard : Type where
  id : Val
  title : Val
  description : Val
  path : Val
  version : Val
  maintainer : Val
  last_updated : Val
  source : Val
  tags : Val
deriving Repr, DecidableEq

/-- Construction of a `Standard` from one manifest entry (a parsed dict),
mirroring `_load_registry` lines 35-45: every missing field defaults to `""`,
except `source` (defaults to `None`) and `tags` (defaults to `[]`). -/
def mkStandardD (kvs : List (Val × Val)) : Standard :=
  { id := dGet kvs "id" (Val.str "")
    title := dGet kvs "title" (Val.str "")
    description := dGet kvs "description" (Val.str "")
    path := dGet kvs "path" (Val.str "")
    version := dGet kvs "version" (Val.str "")
    maintainer := dGet kvs "maintainer" (Val.str "")
    last_updated := dGet kvs "last_updated" (Val.str "")
    source := dGet kvs "source" Val.null
    tags := dGet kvs "tags" (Val.list []) }

/-- `item.get(...)` on a non-dict manifest entry raises `AttributeError`;
on a dict it builds the `Standard` as `mkStandardD` does. -/
def mkStandard (item : Val) : PyM Standard :=
  match item with
  | .dict kvs => pure (mkStandardD kvs)
  | _ => throw "AttributeError"

/-- Python dict assignment `standards[standard.id] = standard`: an existing key
keeps its original position and receives the new value, a new key is appended
at the end. -/
def stdInsert (m : List (Val × Standard)) (k : Val) (s : Standard) :
    List (Val × Standard) :=
  if m.any (fun p => p.1 == k) then
    m.map (fun p => if p.1 == k then (p.1, s) else p)
  else m ++ [(k, s)]

/-- The pure core of `_load_registry`: fold the manifest entries (each a parsed
dict) into the id-keyed `standards` mapping. -/
def registryFromEntries (entries : List (List (Val × Val))) :
    List (Val × Standard) :=
  entries.foldl (fun m kvs => stdInsert m (mkStandardD kvs).id (mkStandardD kvs)) []

/-- `_load_registry` applied to the parsed `registry.yaml` document
(src/standards_registry.py lines 26-46): `registry_data.get("registry", [])`,
iterate the entries, build each `Standard` and store it by id (a non-dict
document or entry, a non-iterable entry list, or an unhashable id raise as in
Python). -/
def loadRegistryDoc (doc : Val) : PyM (List (Val × Standard)) := do
  let entriesVal ← dictGet doc "registry" (Val.list [])
  let items ← pyIter entriesVal
  items.foldlM
    (fun m item => do
      let s ← mkStandard item
      if hashable s.id then pure (stdInsert m s.id s) else throw "TypeError")
    []

/-- The mutable state of a `StandardsRegistry` object: the root path, the
`standards` mapping built by `_load_registry`, and the raw-document
`data_cache` keyed by the string `standard_id` argument. -/
structure Registry : Type where
  root : String
  standards : List (Val × Standard)
  data_cache : List (String × Val)
deriving Repr, DecidableEq

/-- `StandardsRegistry.get_standard` (lines 48-49): `self.standards.get(id)`. -/
def getStandard (R : Registry) (sid : String) : Option Standard :=
  match R.standards.find? (fun p => p.1 == Val.str sid) with
  | some p => some p.2
  | none => none

/-- `StandardsRegistry.list_standards` (lines 51-52): the stored standards in
dict order. -/
def listStandards (R : Registry) : List Standard := R.standards.map (fun p => p.2)

/-- Lookup in the `data_cache` (`standard_id in self.data_cache` plus
`self.data_cache[standard_id]`). -/
def cacheLookup (c : List (String × Val)) (k : String) : Option Val :=
  match c.find? (fun p => p.1 == k) with
  | some p => some p.2
  | none => none

/-- `self.data_cache[standard_id] = data`: Python dict assignment. -/
def cacheInsert (c : List (String × Val)) (k : String) (v : Val) :
    List (String × Val) :=
  if c.any (fun p => p.1 == k) then
    c.map (fun p => if p.1 == k then (p.1, v) else p)
  else c ++ [(k, v)]

/-- The tail of `load_standard_data`'s non-special branch (lines 95-106), run
on the parsed document of the chosen candidate path: reject falsy documents,
reject documents normalizing to falsy records, otherwise cache and return. -/
def useDoc (R : Registry) (standard_id : String) (data : Val) :
    PyM (Val × Registry) := do
  if isTruthy data = false then return (Val.null, R)
  let records ← getDataRecords data
  if isTruthy records = false then return (Val.null, R)
  return (data, { R with data_cache := cacheInsert R.data_cache standard_id data })

/-- The `school_boards` candidate loop of `load_standard_data` (lines 73-82):
skip candidates that do not exist; parse an existing one and return it (and
cache it) only when it normalizes to truthy records, else continue; `None`
after the loop. -/
def schoolLoop (fs : String → Option Val) (R : Registry) (standard_id : String) :
    List String → PyM (Val × Registry)
  | [] => pure (Val.null, R)
  | p :: rest =>
    match fs p with
    | none => schoolLoop fs R standard_id rest
    | some data => do
      let records ← getDataRecords data
      if isTruthy records then
        pure (data, { R with data_cache := cacheInsert R.data_cache standard_id data })
      else schoolLoop fs R standard_id rest

/-- `standard.path.split("/")` and friends need `path` to be a string
(`AttributeError` otherwise, as in Python). -/
def asStr : Val → PyM String
  | .str s => pure s
  | _ => throw "AttributeError"

/-- Kernel-computable `str.split("/")`: structural recursion over the
character list, with the same semantics as Python `split` with a
one-character separator (the empty string splits to `[""]`). -/
def splitSlash : List Char → List (List Char)
  | [] => [[]]
  | c :: cs =>
    if c = '/' then [] :: splitSlash cs
    else
      match splitSlash cs with
      | [] => [[c]]
      | g :: gs => (c :: g) :: gs

/-- `path.split("/")` as a list of strings. -/
def pySplit (s : String) : List String := (splitSlash s.toList).map String.mk

/-- Kernel-computable core of `str.replace(pat, repl)`: non-overlapping
left-to-right replacement over character lists, fuelled by the list length
(always sufficient), so it evaluates inside the kernel. -/
def replaceFuel (pat repl : List Char) : Nat → List Char → List Char
  | 0, l => l
  | _ + 1, [] => []
  | fuel + 1, c :: cs =>
    if pat ≠ [] ∧ pat.isPrefixOf (c :: cs) then
      repl ++ replaceFuel pat repl fuel (List.drop pat.length (c :: cs))
    else c :: replaceFuel pat repl fuel cs

/-- `filename.replace(pat, repl)` (all occurrences, as in Python). -/
def pyReplace (s pat repl : String) : String :=
  String.mk (replaceFuel pat.toList repl.toList s.toList.length s.toList)

/-- Lines 63-65 and 85-89 of `load_standard_data`: the path decomposition
(`split("/")`, last component, directory prefix) and the three candidate paths
of a non-special standard — the exact manifest path, the same directory with
the filename prefixed by the fixed date-stamp token `20251030_`, and the same
directory with every occurrence of `.yaml` in the filename replaced by
`.json`. -/
def candidatePaths (root pathStr : String) : List String :=
  let parts := pySplit pathStr
  let filename := parts.getLastD ""
  let dirPath := String.intercalate "/" parts.dropLast
  [pjoin root pathStr,
   pjoin (pjoin root dirPath) ("20251030_" ++ filename),
   pjoin (pjoin root dirPath) (pyReplace filename ".yaml" ".json")]

/-- `StandardsRegistry.load_standard_data` (lines 54-106).  Returns the cached
raw document when present; otherwise resolves the standard's data file:
the `school_boards` id gets the two fixed JSON candidates with the
record-count-gated loop, every other id gets the three `candidatePaths` gated
on existence alone (`next(p for p in possible_paths if p.exists())`), then
`useDoc`.  The YAML-vs-JSON parser choice by suffix is invisible here because
`fs` already yields parsed documents. -/
def loadStandardData (fs : String → Option Val) (R : Registry)
    (standard_id : String) : PyM (Val × Registry) :=
  match cacheLookup R.data_cache standard_id with
  | some v => pure (v, R)
  | none =>
    match getStandard R standard_id with
    | none => pure (Val.null, R)
    | some standard => do
      let pathStr ← asStr standard.path
      if standard_id = "school_boards" then
        schoolLoop fs R standard_id
          [pjoin (pjoin R.root "data") "school_boards_with_acronyms.json",
           pjoin (pjoin R.root "data") "20251030_school_boards.json"]
      else
        match (candidatePaths R.root pathStr).find? (fun p => (fs p).isSome) with
        | none => pure (Val.null, R)
        | some foundPath => useDoc R standard_id ((fs foundPath).getD Val.null)

/-- The per-record search predicate of `search_records` line 133:
`query_lower in " ".join(str(v) for v in r.values() if v).lower()`.  Note the
`if v`: *truthy* values are joined, not merely non-null ones. -/
def recordHit (queryLower : String) (r : Val) : PyM Bool := do
  let vals ← pyValues r
  pure (substrB queryLower
    (pyLower (String.intercalate " " ((vals.filter isTruthy).map pyStr))))

/-- `StandardsRegistry.search_records` (lines 123-133). -/
def searchRecords (fs : String → Option Val) (R : Registry)
    (standard_id query : String) : PyM (Val × Registry) := do
  let (data, R2) ← loadStandardData fs R standard_id
  if isTruthy data = false then return (Val.list [], R2)
  let records ← getDataRecords data
  if isTruthy records = false then return (Val.list [], R2)
  let queryLower := pyLower query
  let rs ← pyIter records
  let matched ← filterME (recordHit queryLower) rs
  return (Val.list matched, R2)

/-- `StandardsRegistry.get_statistics` (lines 135-144). -/
def getStatistics (fs : String → Option Val) (R : Registry)
    (standard_id : String) : PyM (Val × Registry) := do
  let (data, R2) ← loadStandardData fs R standard_id
  if isTruthy data = false then return (Val.dict [], R2)
  let records ← getDataRecords data
  if isTruthy records = false then return (Val.dict [], R2)
  let n ← pyLen records
  let first ← pySubscriptZero records
  let keys ← pyKeys first
  return (Val.dict [(Val.str "total_records", Val.int n),
                    (Val.str "fields", keys)], R2)

/-- Fixture: a standard with id `"s"` whose manifest path is `data/s.yaml`. -/
def stdW : Standard :=
  mkStandardD [(Val.str "id", Val.str "s"), (Val.str "path", Val.str "data/s.yaml")]

/-- Fixture: a registry rooted at `reg` holding only `stdW`, empty cache. -/
def RW : Registry := { root := "reg", standards := [(Val.str "s", stdW)], data_cache := [] }

/-- Fixture: a flat-form document with two records. -/
def docW : Val :=
  Val.dict [(Val.str "data",
    Val.list [Val.dict [(Val.str "name", Val.str "abcdef")],
              Val.dict [(Val.str "name", Val.str "xyz")]])]

/-- Fixture: a filesystem with exactly the manifest path of `stdW` on disk. -/
def fsW : String → Option Val :=
  fun p => if p = "reg/data/s.yaml" then some docW else none

/-- Fixture: `RW` after a successful load of `"s"` cached `docW`. -/
def RWc : Registry :=
  { root := "reg", standards := [(Val.str "s", stdW)], data_cache := [("s", docW)] }

example : loadStandardData fsW RW "s" = Except.ok (docW, RWc) := by decide

example : searchRecords fsW RW "s" "abc" =
    Except.ok (Val.list [Val.dict [(Val.str "name", Val.str "abcdef")]], RWc) := by decide

example : searchRecords fsW RW "s" "ABC" =
    Except.ok (Val.list [Val.dict [(Val.str "name", Val.str "abcdef")]], RWc) := by decide

example : searchRecords fsW RW "s" "" =
    Except.ok (Val.list [Val.dict [(Val.str "name", Val.str "abcdef")],
                         Val.dict [(Val.str "name", Val.str "xyz")]], RWc) := by decide

example : getStatistics fsW RW "s" =
    Except.ok (Val.dict [(Val.str "total_records", Val.int 2),
                         (Val.str "fields", Val.list [Val.str "name"])], RWc) := by decide

theorem charToNat_ofNat {m : Nat} (h : m.isValidChar) : (Char.ofNat m).toNat = m := by
  rw [Char.ofNat, dif_pos h]
  rfl

/-- ASCII: upper-casing then lower-casing a character lower-cases it. -/
theorem pyCharLower_pyCharUpper (c : Char) : pyCharLower (pyCharUpper c) = pyCharLower c := by
  unfold pyCharUpper
  by_cases h : 97 ≤ c.toNat ∧ c.toNat ≤ 122
  · rw [if_pos h]
    have hvalid : (c.toNat - 32).isValidChar := by
      constructor
      change c.toNat - 32 < 55296
      omega
    have ht : (Char.ofNat (c.toNat - 32)).toNat = c.toNat - 32 := charToNat_ofNat hvalid
    unfold pyCharLower
    rw [ht]
    rw [if_pos (by omega), if_neg (by omega)]
    have h2 : c.toNat - 32 + 32 = c.toNat := by omega
    rw [h2, Char.ofNat_toNat]
  · rw [if_neg h]

/-- Python `q.upper().lower() == q.lower()` (ASCII fragment). -/
theorem pyLower_pyUpper (s : String) : pyLower (pyUpper s) = pyLower s := by
  unfold pyLower pyUpper
  have h : (String.mk (s.toList.map pyCharUpper)).toList = s.toList.map pyCharUpper := rfl
  rw [h, List.map_map]
  congr 1
  exact List.map_congr_left (fun c _ => pyCharLower_pyCharUpper c)

/-- Python-dict insertion followed by lookup of the same key finds the new
value (generic over the value type, covering `cacheInsert` and `stdInsert`). -/
theorem find?_snd_pyInsert {α β : Type} [DecidableEq α] (c : List (α × β)) (k : α) (v : β) :
    ((if c.any (fun p => p.1 == k) then
        c.map (fun p => if p.1 == k then (p.1, v) else p)
      else c ++ [(k, v)]).find? (fun p => p.1 == k)).map (fun p => p.2) = some v := by
  by_cases hany : c.any (fun p => p.1 == k) = true
  · rw [if_pos hany]
    induction c with
    | nil => simp at hany
    | cons q c ih =>
      rw [List.map_cons]
      by_cases hq : (q.1 == k) = true
      · have hfq : (if (q.1 == k) = true then (q.1, v) else q) = (q.1, v) := if_pos hq
        rw [hfq]
        simp [List.find?_cons, hq]
      · have hfq : (if (q.1 == k) = true then (q.1, v) else q) = q := if_neg hq
        have hqf : (q.1 == k) = false := by
          cases hqk : (q.1 == k) with
          | true => exact absurd hqk hq
          | false => rfl
        rw [hfq]
        simp only [List.find?_cons, hqf]
        have hc : c.any (fun p => p.1 == k) = true := by
          simp only [List.any_cons, hqf, Bool.false_or] at hany
          exact hany
        exact ih hc
  · rw [if_neg hany]
    have hnone : c.find? (fun p => p.1 == k) = none := by
      rw [List.find?_eq_none]
      intro x hx hpx
      exact hany (List.any_of_mem hx hpx)
    rw [List.find?_append, hnone]
    simp

/-- `cacheLookup` is `find?` followed by the value projection. -/
theorem cacheLookup_eq_map (c : List (String × Val)) (k : String) :
    cacheLookup c k = (c.find? (fun p => p.1 == k)).map (fun p => p.2) := by
  unfold cacheLookup
  cases c.find? (fun p => p.1 == k) with
  | none => rfl
  | some p => rfl

/-- Inserting into the cache makes the key immediately resolvable to the new
value. -/
theorem cacheLookup_cacheInsert (c : List (String × Val)) (k : String) (v : Val) :
    cacheLookup (cacheInsert c k v) k = some v := by
  rw [cacheLookup_eq_map]
  unfold cacheInsert
  exact find?_snd_pyInsert c k v

/-- A falsy document normalizes to the empty record list. -/
theorem getDataRecords_falsy {d : Val} (h : isTruthy d = false) :
    getDataRecords d = Except.ok (Val.list []) := by
  unfold getDataRecords
  rw [h]
  rfl

/-- Truthy records can only come from a truthy document. -/
theorem isTruthy_of_records {d r : Val} (h : getDataRecords d = Except.ok r)
    (ht : isTruthy r = true) : isTruthy d = true := by
  cases hd : isTruthy d with
  | true => rfl
  | false =>
    rw [getDataRecords_falsy hd] at h
    cases h
    cases ht

/-- Every result of the `school_boards` candidate loop is either cached truthy
data or leaves the registry untouched. -/
theorem schoolLoop_ok (fs : String → Option Val) (R : Registry) (sid : String) :
    ∀ ps v R2, schoolLoop fs R sid ps = Except.ok (v, R2) →
      (isTruthy v = true → cacheLookup R2.data_cache sid = some v) ∧
      (isTruthy v = false → R2 = R) := by
  intro ps
  induction ps with
  | nil =>
    intro v R2 h
    unfold schoolLoop at h
    cases h
    exact ⟨fun ht => (nomatch ht), fun _ => rfl⟩
  | cons p rest ih =>
    intro v R2 h
    cases hfs : fs p with
    | none =>
      simp only [schoolLoop, hfs] at h
      exact ih v R2 h
    | some data =>
      simp only [schoolLoop, hfs] at h
      cases hrec : getDataRecords data with
      | error e =>
        rw [hrec] at h
        simp only [bind, Except.bind] at h
        cases h
      | ok records =>
        rw [hrec] at h
        simp only [bind, Except.bind] at h
        cases htr : isTruthy records with
        | false =>
          rw [htr, if_neg Bool.false_ne_true] at h
          exact ih v R2 h
        | true =>
          rw [htr, if_pos rfl] at h
          cases h
          refine ⟨fun _ => ?_, fun hf => ?_⟩
          · exact cacheLookup_cacheInsert R.data_cache sid v
          · rw [isTruthy_of_records hrec htr] at hf
            cases hf

/-- Every `useDoc` result is either cached truthy data or leaves the registry
untouched. -/
theorem useDoc_ok (R : Registry) (sid : String) (data v : Val) (R2 : Registry)
    (h : useDoc R sid data = Except.ok (v, R2)) :
    (isTruthy v = true → cacheLookup R2.data_cache sid = some v) ∧
    (isTruthy v = false → R2 = R) := by
  unfold useDoc at h
  cases hd : isTruthy data with
  | false =>
    rw [hd, if_pos rfl] at h
    cases h
    exact ⟨fun ht => (nomatch ht), fun _ => rfl⟩
  | true =>
    rw [hd, if_neg (fun hh => Bool.noConfusion hh)] at h
    cases hrec : getDataRecords data with
    | error e =>
      rw [hrec] at h
      simp only [bind, Except.bind] at h
      cases h
    | ok records =>
      rw [hrec] at h
      simp only [bind, Except.bind] at h
      cases htr : isTruthy records with
      | false =>
        rw [htr, if_pos rfl] at h
        cases h
        exact ⟨fun ht => (nomatch ht), fun _ => rfl⟩
      | true =>
        rw [htr, if_neg (fun hh => Bool.noConfusion hh)] at h
        obtain ⟨h1, h2⟩ := Prod.mk.inj (Except.ok.inj h)
        refine ⟨fun _ => ?_, fun hf => ?_⟩
        · rw [← h2, ← h1]
          exact cacheLookup_cacheInsert R.data_cache sid data
        · rw [← h1, hd] at hf
          cases hf

/-- Master lemma about `load_standard_data`: a returned truthy document is
always resolvable from the updated cache under the same id, and a falsy return
(`None`) leaves the registry state exactly as it was — absence is never
cached. -/
theorem loadStandardData_ok (fs : String → Option Val) (R : Registry) (sid : String)
    (v : Val) (R2 : Registry) (h : loadStandardData fs R sid = Except.ok (v, R2)) :
    (isTruthy v = true → cacheLookup R2.data_cache sid = some v) ∧
    (isTruthy v = false → R2 = R) := by
  cases hc : cacheLookup R.data_cache sid with
  | some w =>
    simp only [loadStandardData, hc] at h
    cases h
    exact ⟨fun _ => hc, fun _ => rfl⟩
  | none =>
    cases hs : getStandard R sid with
    | none =>
      simp only [loadStandardData, hc, hs] at h
      cases h
      exact ⟨fun ht => (nomatch ht), fun _ => rfl⟩
    | some standard =>
      simp only [loadStandardData, hc, hs] at h
      cases hp : asStr standard.path with
      | error e =>
        rw [hp] at h
        simp only [bind, Except.bind] at h
        cases h
      | ok pathStr =>
        rw [hp] at h
        simp only [bind, Except.bind] at h
        by_cases hsid : sid = "school_boards"
        · rw [if_pos hsid] at h
          exact schoolLoop_ok fs R sid _ v R2 h
        · rw [if_neg hsid] at h
          cases hfind : (candidatePaths R.root pathStr).find?
              (fun p => (fs p).isSome) with
          | none =>
            rw [hfind] at h
            cases h
            exact ⟨fun ht => (nomatch ht), fun _ => rfl⟩
          | some foundPath =>
            rw [hfind] at h
            exact useDoc_ok R sid ((fs foundPath).getD Val.null) v R2 h

/-- An id that is neither cached nor in the standards mapping loads as `None`
with the registry untouched. -/
theorem loadStandardData_unknown (fs : String → Option Val) (R : Registry)
    (sid : String) (hs : getStandard R sid = none)
    (hc : cacheLookup R.data_cache sid = none) :
    loadStandardData fs R sid = Except.ok (Val.null, R) := by
  simp only [loadStandardData, hc, hs]
  rfl

/-- Searching an unknown id yields the empty list, the registry untouched. -/
theorem searchRecords_unknown (fs : String → Option Val) (R : Registry)
    (sid q : String) (hs : getStandard R sid = none)
    (hc : cacheLookup R.data_cache sid = none) :
    searchRecords fs R sid q = Except.ok (Val.list [], R) := by
  have hl := loadStandardData_unknown fs R sid hs hc
  simp only [searchRecords, hl, bind, Except.bind]
  rfl

/-- Statistics for an unknown id yield the empty dict, the registry
untouched. -/
theorem getStatistics_unknown (fs : String → Option Val) (R : Registry)
    (sid : String) (hs : getStandard R sid = none)
    (hc : cacheLookup R.data_cache sid = none) :
    getStatistics fs R sid = Except.ok (Val.dict [], R) := by
  have hl := loadStandardData_unknown fs R sid hs hc
  simp only [getStatistics, hl, bind, Except.bind]
  rfl

/-- C6: once a standard id has loaded successfully, every later
`load_standard_data` call returns the identical cached raw document no matter
how the filesystem has changed in between; and a load that returned `None`
stored nothing — the registry state is exactly as before, so later calls
re-attempt resolution. -/
theorem c6_cache_round_trip (fs : String → Option Val) (R : Registry)
    (sid : String) (d : Val) (R2 : Registry)
    (h : loadStandardData fs R sid = Except.ok (d, R2)) :
    (isTruthy d = true → ∀ fs2 : String → Option Val,
        loadStandardData fs2 R2 sid = Except.ok (d, R2)) ∧
    (d = Val.null → R2 = R) := by
  obtain ⟨h1, h2⟩ := loadStandardData_ok fs R sid d R2 h
  constructor
  · intro ht fs2
    have hl := h1 ht
    simp only [loadStandardData, hl]
    rfl
  · intro hn
    apply h2
    rw [hn]
    rfl

/-- C6 witness: after loading `docW` for id `s`, a second load against an
empty filesystem (the file is gone) still returns the cached document. -/
theorem c6_cache_round_trip_witness :
    loadStandardData (fun _ => none) RWc "s" = Except.ok (docW, RWc) :=
  ((c6_cache_round_trip fsW RW "s" docW RWc (by decide)).1 (by decide)) (fun _ => none)

/-- C9: an id absent from the standards mapping (and, as in every reachable
state, absent from the cache) makes every query method return its absence or
empty value, with no exception: `get_standard` gives `None`,
`load_standard_data` gives `None`, `search_records` gives `[]`,
`get_statistics` gives an empty dict, and the registry state is untouched. -/
theorem c9_unknown_id_everywhere (fs : String → Option Val) (R : Registry)
    (sid q : String) (hs : getStandard R sid = none)
    (hc : cacheLookup R.data_cache sid = none) :
    getStandard R sid = none ∧
    loadStandardData fs R sid = Except.ok (Val.null, R) ∧
    searchRecords fs R sid q = Except.ok (Val.list [], R) ∧
    getStatistics fs R sid = Except.ok (Val.dict [], R) :=
  ⟨hs, loadStandardData_unknown fs R sid hs hc,
   searchRecords_unknown fs R sid q hs hc,
   getStatistics_unknown fs R sid hs hc⟩

/-- C9 witness: the unknown id `zzz` on the concrete one-standard registry. -/
theorem c9_unknown_id_everywhere_witness :
    getStandard RW "zzz" = none ∧
    loadStandardData fsW RW "zzz" = Except.ok (Val.null, RW) ∧
    searchRecords fsW RW "zzz" "abc" = Except.ok (Val.list [], RW) ∧
    getStatistics fsW RW "zzz" = Except.ok (Val.dict [], RW) :=
  c9_unknown_id_everywhere fsW RW "zzz" "abc" (by decide) (by decide)

/-- The empty string is a substring of every string, as in Python. -/
theorem substrB_nil (hay : String) : substrB "" hay = true := by
  unfold substrB
  exact decide_eq_true List.nil_infix

/-- Lowering the empty string gives the empty string. -/
theorem pyLower_empty : pyLower "" = "" := rfl

/-- A filtering comprehension whose predicate accepts everything returns the
whole list. -/
theorem filterME_all_true (p : Val → PyM Bool) :
    ∀ rs : List Val, (∀ r ∈ rs, p r = Except.ok true) → filterME p rs = Except.ok rs := by
  intro rs
  induction rs with
  | nil => intro _; rfl
  | cons r rest ih =>
    intro hall
    have hr := hall r (List.mem_cons_self r rest)
    have hrest := ih (fun x hx => hall x (List.mem_cons_of_mem r hx))
    simp only [filterME, hr, hrest, bind, Except.bind]
    rfl

/-- Recognizer for dict-shaped records. -/
def isDictB : Val → Bool
  | .dict _ => true
  | _ => false

theorem exists_dict_of_isDictB {r : Val} (h : isDictB r = true) :
    ∃ kvs, r = Val.dict kvs := by
  cases r with
  | dict kvs => exact ⟨kvs, rfl⟩
  | null => cases h
  | bool b => cases h
  | int n => cases h
  | str s => cases h
  | list l => cases h

/-- The empty query hits every dict record. -/
theorem recordHit_empty (kvs : List (Val × Val)) :
    recordHit "" (Val.dict kvs) = Except.ok true := by
  simp only [recordHit, pyValues, bind, Except.bind, pure, Except.pure, substrB_nil]

/-- C1 counterexample: on a loaded standard with two records, searching with
the empty query returns both records — the full record list, not an empty
result (every record matches the empty substring). -/
theorem c1_counterexample :
    searchRecords fsW RW "s" "" =
      Except.ok (Val.list [Val.dict [(Val.str "name", Val.str "abcdef")],
                           Val.dict [(Val.str "name", Val.str "xyz")]], RWc) ∧
    Val.list [Val.dict [(Val.str "name", Val.str "abcdef")],
              Val.dict [(Val.str "name", Val.str "xyz")]] ≠ Val.list [] :=
  ⟨by decide, by decide⟩

/-- C1 (amended): calling `search_records` with an empty query string returns
the *entire* record list of the loaded standard (the empty string matches every
record), while an unknown standard id still returns an empty result. -/
theorem c1_empty_query_returns_all (fs : String → Option Val) (R : Registry)
    (sid : String) (d : Val) (R2 : Registry) (rs : List Val)
    (h : loadStandardData fs R sid = Except.ok (d, R2))
    (ht : isTruthy d = true)
    (hr : getDataRecords d = Except.ok (Val.list rs))
    (hdicts : rs.all isDictB = true) :
    searchRecords fs R sid "" = Except.ok (Val.list rs, R2) ∧
    (∀ sid2 q2, getStandard R sid2 = none → cacheLookup R.data_cache sid2 = none →
      searchRecords fs R sid2 q2 = Except.ok (Val.list [], R)) := by
  constructor
  · have hfil : filterME (recordHit (pyLower "")) rs = Except.ok rs := by
      rw [pyLower_empty]
      apply filterME_all_true
      intro r hrm
      obtain ⟨kvs, rfl⟩ :=
        exists_dict_of_isDictB (List.all_eq_true.mp hdicts r hrm)
      exact recordHit_empty kvs
    simp only [searchRecords, h, bind, Except.bind, pure, Except.pure]
    rw [ht, if_neg (fun hh => Bool.noConfusion hh), hr]
    simp only [bind, Except.bind, pure, Except.pure]
    cases rs with
    | nil => rfl
    | cons a l =>
      rw [show isTruthy (Val.list (a :: l)) = true from rfl,
        if_neg (fun hh => Bool.noConfusion hh)]
      simp only [pyIter, bind, Except.bind, pure, Except.pure]
      rw [hfil]
  · intro sid2 q2 hs2 hc2
    exact searchRecords_unknown fs R sid2 q2 hs2 hc2

/-- C1 witness: the amended statement evaluated on the concrete fixture. -/
theorem c1_empty_query_returns_all_witness :
    (searchRecords fsW RW "s" "" =
      Except.ok (Val.list [Val.dict [(Val.str "name", Val.str "abcdef")],
                           Val.dict [(Val.str "name", Val.str "xyz")]], RWc)) ∧
    (∀ sid2 q2, getStandard RW sid2 = none →
        cacheLookup RW.data_cache sid2 = none →
        searchRecords fsW RW sid2 q2 = Except.ok (Val.list [], RW)) :=
  c1_empty_query_returns_all fsW RW "s" docW RWc
    [Val.dict [(Val.str "name", Val.str "abcdef")],
     Val.dict [(Val.str "name", Val.str "xyz")]]
    (by decide) (by decide) (by decide) (by decide)

/-- Reference predicate written from the spec words of C5: join the string
representations of all NON-NULL values of the record with spaces and test the
query as a case-insensitive substring. -/
def specNonNullJoin : Val → String
  | .dict kvs => String.intercalate " "
      (((kvs.map (fun kv => kv.2)).filter (fun v => !(v == Val.null))).map pyStr)
  | _ => ""

/-- The spec's per-record match predicate (non-null values searched). -/
def specMatchNonNull (q : String) (r : Val) : Bool :=
  substrB (pyLower q) (pyLower (specNonNullJoin r))

/-- The per-record match predicate the code actually implements: only *truthy*
values are joined — null, `0`, `""`, `False` and empty containers are all
dropped before joining. -/
def truthyJoin : Val → String
  | .dict kvs => String.intercalate " "
      (((kvs.map (fun kv => kv.2)).filter isTruthy).map pyStr)
  | _ => ""

/-- Case-insensitive substring match of the query against the truthy-joined
values. -/
def matchesQueryTruthy (q : String) (r : Val) : Bool :=
  substrB (pyLower q) (pyLower (truthyJoin r))

/-- On dict records, the filtering comprehension of `search_records` computes
exactly the `List.filter` by `matchesQueryTruthy`. -/
theorem filterME_recordHit (q : String) :
    ∀ rs : List Val, rs.all isDictB = true →
      filterME (recordHit (pyLower q)) rs =
        Except.ok (rs.filter (matchesQueryTruthy q)) := by
  intro rs
  induction rs with
  | nil => intro _; rfl
  | cons r rest ih =>
    intro hall
    rw [List.all_cons, Bool.and_eq_true] at hall
    obtain ⟨kvs, rfl⟩ := exists_dict_of_isDictB hall.1
    have hhit : recordHit (pyLower q) (Val.dict kvs) =
        Except.ok (matchesQueryTruthy q (Val.dict kvs)) := rfl
    simp only [filterME, hhit, ih hall.2, bind, Except.bind, pure, Except.pure]
    rw [List.filter_cons]

/-- Fixture: a standard with id `z` whose single record holds the integer 0. -/
def stdZ : Standard :=
  mkStandardD [(Val.str "id", Val.str "z"), (Val.str "path", Val.str "data/z.yaml")]

/-- Fixture registry for `stdZ`. -/
def RZ : Registry := { root := "reg", standards := [(Val.str "z", stdZ)], data_cache := [] }

/-- Fixture document whose only record value is `0` (non-null but falsy). -/
def docZ : Val :=
  Val.dict [(Val.str "data", Val.list [Val.dict [(Val.str "a", Val.int 0)]])]

/-- Fixture filesystem for `stdZ`. -/
def fsZ : String → Option Val :=
  fun p => if p = "reg/data/z.yaml" then some docZ else none

/-- `RZ` after a successful load cached `docZ`. -/
def RZc : Registry :=
  { root := "reg", standards := [(Val.str "z", stdZ)], data_cache := [("z", docZ)] }

/-- C5 counterexample: a record whose only value is the integer `0` is counted
as matching query `"0"` by the claim's non-null-values predicate
(`str(0) = "0"`), yet `search_records` returns no match, because the code
filters by truthiness (`if v`), not by non-nullness — `0` is dropped before
joining. -/
theorem c5_counterexample :
    searchRecords fsZ RZ "z" "0" = Except.ok (Val.list [], RZc) ∧
    specMatchNonNull "0" (Val.dict [(Val.str "a", Val.int 0)]) = true ∧
    Val.list [] ≠ Val.list [Val.dict [(Val.str "a", Val.int 0)]] :=
  ⟨by decide, by decide, by decide⟩

/-- C5 (amended): for a loaded standard, `search_records` returns exactly the
ordered subsequence of records whose space-joined string representation of all
*truthy* values (not all non-null values: null, `0`, `""` and `False` are
excluded) contains the query as a case-insensitive substring; field names are
never searched, and upper-casing the query leaves the result unchanged. -/
theorem c5_search_semantics (fs : String → Option Val) (R : Registry)
    (sid q : String) (d : Val) (R2 : Registry) (rs : List Val)
    (h : loadStandardData fs R sid = Except.ok (d, R2))
    (ht : isTruthy d = true)
    (hr : getDataRecords d = Except.ok (Val.list rs))
    (hdicts : rs.all isDictB = true) :
    searchRecords fs R sid q =
      Except.ok (Val.list (rs.filter (matchesQueryTruthy q)), R2) ∧
    searchRecords fs R sid (pyUpper q) = searchRecords fs R sid q := by
  constructor
  · have hfil := filterME_recordHit q rs hdicts
    simp only [searchRecords, h, bind, Except.bind, pure, Except.pure]
    rw [ht, if_neg (fun hh => Bool.noConfusion hh), hr]
    simp only [bind, Except.bind, pure, Except.pure]
    cases rs with
    | nil => rfl
    | cons a l =>
      rw [show isTruthy (Val.list (a :: l)) = true from rfl,
        if_neg (fun hh => Bool.noConfusion hh)]
      simp only [pyIter, bind, Except.bind, pure, Except.pure]
      rw [hfil]
  · unfold searchRecords
    rw [pyLower_pyUpper]

/-- C5 witness: the amended statement evaluated on the concrete fixture with
query `abc`. -/
theorem c5_search_semantics_witness :
    (searchRecords fsW RW "s" "abc" =
      Except.ok (Val.list ([Val.dict [(Val.str "name", Val.str "abcdef")],
          Val.dict [(Val.str "name", Val.str "xyz")]].filter
        (matchesQueryTruthy "abc")), RWc)) ∧
    searchRecords fsW RW "s" (pyUpper "abc") = searchRecords fsW RW "s" "abc" :=
  c5_search_semantics fsW RW "s" "abc" docW RWc
    [Val.dict [(Val.str "name", Val.str "abcdef")],
     Val.dict [(Val.str "name", Val.str "xyz")]]
    (by decide) (by decide) (by decide) (by decide)

/-- C7: for a standard whose data loads and normalizes to a non-empty record
list, `get_statistics` returns a dict with `total_records` equal to the number
of normalized records and `fields` equal to the key list of the *first* record
only; when the id is unknown, the data is absent, or the dataset normalizes to
zero records, it returns the empty dict — in every case without raising. -/
theorem c7_statistics (fs : String → Option Val) (R : Registry) (sid : String) :
    (∀ d R2 rest kvs, loadStandardData fs R sid = Except.ok (d, R2) →
      isTruthy d = true →
      getDataRecords d = Except.ok (Val.list (Val.dict kvs :: rest)) →
      getStatistics fs R sid = Except.ok (Val.dict
        [(Val.str "total_records", Val.int (Int.ofNat (rest.length + 1))),
         (Val.str "fields", Val.list (kvs.map (fun kv => kv.1)))], R2)) ∧
    (getStandard R sid = none → cacheLookup R.data_cache sid = none →
      getStatistics fs R sid = Except.ok (Val.dict [], R)) ∧
    (∀ d R2, loadStandardData fs R sid = Except.ok (d, R2) → isTruthy d = false →
      getStatistics fs R sid = Except.ok (Val.dict [], R2)) ∧
    (∀ d R2, loadStandardData fs R sid = Except.ok (d, R2) → isTruthy d = true →
      getDataRecords d = Except.ok (Val.list []) →
      getStatistics fs R sid = Except.ok (Val.dict [], R2)) := by
  refine ⟨?_, ?_, ?_, ?_⟩
  · intro d R2 rest kvs h ht hr
    simp only [getStatistics, h, bind, Except.bind, pure, Except.pure]
    rw [ht, if_neg (fun hh => Bool.noConfusion hh), hr]
    simp only [bind, Except.bind, pure, Except.pure]
    rw [show isTruthy (Val.list (Val.dict kvs :: rest)) = true from rfl,
      if_neg (fun hh => Bool.noConfusion hh)]
    simp only [pyLen, pySubscriptZero, pyKeys, bind, Except.bind, pure, Except.pure,
      List.length_cons]
    rfl
  · intro hs hc
    exact getStatistics_unknown fs R sid hs hc
  · intro d R2 h hf
    simp only [getStatistics, h, bind, Except.bind, pure, Except.pure]
    rw [hf, if_pos rfl]
  · intro d R2 h ht hr
    simp only [getStatistics, h, bind, Except.bind, pure, Except.pure]
    rw [ht, if_neg (fun hh => Bool.noConfusion hh), hr]
    simp only [bind, Except.bind, pure, Except.pure]
    rfl

/-- C7 witness: statistics on the concrete two-record fixture. -/
theorem c7_statistics_witness :
    getStatistics fsW RW "s" = Except.ok (Val.dict
      [(Val.str "total_records", Val.int (Int.ofNat ([Val.dict [(Val.str "name",
          Val.str "xyz")]].length + 1))),
       (Val.str "fields",
        Val.list ([((Val.str "name" : Val), (Val.str "abcdef" : Val))].map
          (fun kv => kv.1)))], RWc) :=
  (c7_statistics fsW RW "s").1 docW RWc
    [Val.dict [(Val.str "name", Val.str "xyz")]]
    [(Val.str "name", Val.str "abcdef")]
    (by decide) (by decide) (by decide)

/-- For a cache-missed, known, non-special id with a string manifest path,
`load_standard_data` is exactly: take the first existing candidate path and
process its document with `useDoc`; `None` if no candidate exists. -/
theorem loadStandardData_candidates (fs : String → Option Val) (R : Registry)
    (sid : String) (standard : Standard) (pathStr : String)
    (hc : cacheLookup R.data_cache sid = none)
    (hs : getStandard R sid = some standard)
    (hsid : ¬sid = "school_boards")
    (hp : standard.path = Val.str pathStr) :
    loadStandardData fs R sid =
      (match (candidatePaths R.root pathStr).find? (fun p => (fs p).isSome) with
       | none => Except.ok (Val.null, R)
       | some foundPath => useDoc R sid ((fs foundPath).getD Val.null)) := by
  simp only [loadStandardData, hc, hs, hp, asStr, bind, Except.bind, pure, Except.pure]
  rw [if_neg hsid]

/-- For the special id, `load_standard_data` is exactly the two-candidate
record-count-gated loop. -/
theorem loadStandardData_school (fs : String → Option Val) (R : Registry)
    (standard : Standard) (pathStr : String)
    (hc : cacheLookup R.data_cache "school_boards" = none)
    (hs : getStandard R "school_boards" = some standard)
    (hp : standard.path = Val.str pathStr) :
    loadStandardData fs R "school_boards" =
      schoolLoop fs R "school_boards"
        [pjoin (pjoin R.root "data") "school_boards_with_acronyms.json",
         pjoin (pjoin R.root "data") "20251030_school_boards.json"] := by
  simp only [loadStandardData, hc, hs, hp, asStr, bind, Except.bind, pure, Except.pure]
  exact if_pos trivial

/-- Candidate-selection law: with the three candidates spelled out, the loader
uses the first one that exists — regardless of its content — and yields `None`
untouched when none exists. -/
theorem loadStandardData_first_found (fs : String → Option Val) (R : Registry)
    (sid : String) (standard : Standard) (pathStr : String) (c1 c2 c3 : String)
    (d : Val)
    (hc : cacheLookup R.data_cache sid = none)
    (hs : getStandard R sid = some standard)
    (hsid : ¬sid = "school_boards")
    (hp : standard.path = Val.str pathStr)
    (hcand : candidatePaths R.root pathStr = [c1, c2, c3]) :
    (fs c1 = some d → loadStandardData fs R sid = useDoc R sid d) ∧
    (fs c1 = none → fs c2 = some d → loadStandardData fs R sid = useDoc R sid d) ∧
    (fs c1 = none → fs c2 = none → fs c3 = some d →
      loadStandardData fs R sid = useDoc R sid d) ∧
    (fs c1 = none → fs c2 = none → fs c3 = none →
      loadStandardData fs R sid = Except.ok (Val.null, R)) := by
  rw [loadStandardData_candidates fs R sid standard pathStr hc hs hsid hp, hcand]
  refine ⟨?_, ?_, ?_, ?_⟩
  · intro h1
    simp [List.find?_cons, h1]
  · intro h1 h2
    simp [List.find?_cons, h1, h2]
  · intro h1 h2 h3
    simp [List.find?_cons, h1, h2, h3]
  · intro h1 h2 h3
    simp [List.find?_cons, h1, h2, h3]

/-- A falsy document, or one normalizing to falsy records, makes `useDoc`
return `None` with the registry untouched. -/
theorem useDoc_null (R : Registry) (sid : String) (d : Val)
    (h : isTruthy d = false ∨
      ∃ recs, getDataRecords d = Except.ok recs ∧ isTruthy recs = false) :
    useDoc R sid d = Except.ok (Val.null, R) := by
  cases hd : isTruthy d with
  | false =>
    simp only [useDoc, hd]
    rfl
  | true =>
    rcases h with h1 | ⟨recs, hrec, htr⟩
    · rw [hd] at h1
      cases h1
    · simp only [useDoc, hd, hrec, htr, bind, Except.bind]
      rfl

/-- C2: for every standard id other than `school_boards`, with a cache miss and
a string manifest path, the three candidates — exact manifest path, same
directory with the `20251030_`-prefixed filename, same directory with `.yaml`
replaced by `.json` — are tried in that order, and the first candidate that
exists on disk is the one whose parsed document is processed (`useDoc`),
gated on existence alone: no record-count condition influences which candidate
is chosen. -/
theorem c2_candidate_resolution (fs : String → Option Val) (R : Registry)
    (sid : String) (standard : Standard) (pathStr : String)
    (hc : cacheLookup R.data_cache sid = none)
    (hs : getStandard R sid = some standard)
    (hsid : ¬sid = "school_boards")
    (hp : standard.path = Val.str pathStr) :
    ∀ c1 c2 c3, candidatePaths R.root pathStr = [c1, c2, c3] →
    ((∀ d, fs c1 = some d → loadStandardData fs R sid = useDoc R sid d) ∧
     (fs c1 = none → ∀ d, fs c2 = some d →
        loadStandardData fs R sid = useDoc R sid d) ∧
     (fs c1 = none → fs c2 = none → ∀ d, fs c3 = some d →
        loadStandardData fs R sid = useDoc R sid d) ∧
     (fs c1 = none → fs c2 = none → fs c3 = none →
        loadStandardData fs R sid = Except.ok (Val.null, R))) := by
  intro c1 c2 c3 hcand
  refine ⟨?_, ?_, ?_, ?_⟩
  · intro d h1
    exact (loadStandardData_first_found fs R sid standard pathStr c1 c2 c3 d
      hc hs hsid hp hcand).1 h1
  · intro h1 d h2
    exact (loadStandardData_first_found fs R sid standard pathStr c1 c2 c3 d
      hc hs hsid hp hcand).2.1 h1 h2
  · intro h1 h2 d h3
    exact (loadStandardData_first_found fs R sid standard pathStr c1 c2 c3 d
      hc hs hsid hp hcand).2.2.1 h1 h2 h3
  · intro h1 h2 h3
    exact (loadStandardData_first_found fs R sid standard pathStr c1 c2 c3
      Val.null hc hs hsid hp hcand).2.2.2 h1 h2 h3

/-- Fixture: a filesystem where only the second candidate (the date-stamped
variant) of `stdW` exists. -/
def fsW2 : String → Option Val :=
  fun p => if p = "reg/data/20251030_s.yaml" then some docW else none

/-- C2 witness: with only the date-stamped second candidate on disk, the loader
uses exactly that candidate's document. -/
theorem c2_candidate_resolution_witness :
    loadStandardData fsW2 RW "s" = useDoc RW "s" docW :=
  ((c2_candidate_resolution fsW2 RW "s" stdW "data/s.yaml"
      (by decide) (by decide) (by decide) (by decide)
      "reg/data/s.yaml" "reg/data/20251030_s.yaml" "reg/data/s.json"
      (by decide)).2.1) (by decide) docW (by decide)

/-- C10: for a non-special id, when the first existing candidate parses to a
falsy document or to a document normalizing to falsy records,
`load_standard_data` returns `None` with the registry untouched — the
remaining candidate paths are never consulted (the filesystem is unconstrained
at the later candidates, yet the result is pinned to `None`). -/
theorem c10_no_fallthrough (fs : String → Option Val) (R : Registry)
    (sid : String) (standard : Standard) (pathStr : String)
    (hc : cacheLookup R.data_cache sid = none)
    (hs : getStandard R sid = some standard)
    (hsid : ¬sid = "school_boards")
    (hp : standard.path = Val.str pathStr) :
    ∀ c1 c2 c3, candidatePaths R.root pathStr = [c1, c2, c3] →
    ((∀ d, fs c1 = some d →
        (isTruthy d = false ∨
          ∃ recs, getDataRecords d = Except.ok recs ∧ isTruthy recs = false) →
        loadStandardData fs R sid = Except.ok (Val.null, R)) ∧
     (fs c1 = none → ∀ d, fs c2 = some d →
        (isTruthy d = false ∨
          ∃ recs, getDataRecords d = Except.ok recs ∧ isTruthy recs = false) →
        loadStandardData fs R sid = Except.ok (Val.null, R)) ∧
     (fs c1 = none → fs c2 = none → ∀ d, fs c3 = some d →
        (isTruthy d = false ∨
          ∃ recs, getDataRecords d = Except.ok recs ∧ isTruthy recs = false) →
        loadStandardData fs R sid = Except.ok (Val.null, R))) := by
  intro c1 c2 c3 hcand
  refine ⟨?_, ?_, ?_⟩
  · intro d h1 hnull
    rw [(loadStandardData_first_found fs R sid standard pathStr c1 c2 c3 d
      hc hs hsid hp hcand).1 h1]
    exact useDoc_null R sid d hnull
  · intro h1 d h2 hnull
    rw [(loadStandardData_first_found fs R sid standard pathStr c1 c2 c3 d
      hc hs hsid hp hcand).2.1 h1 h2]
    exact useDoc_null R sid d hnull
  · intro h1 h2 d h3 hnull
    rw [(loadStandardData_first_found fs R sid standard pathStr c1 c2 c3 d
      hc hs hsid hp hcand).2.2.1 h1 h2 h3]
    exact useDoc_null R sid d hnull

/-- Fixture: a zero-record document. -/
def docE : Val := Val.dict [(Val.str "data", Val.list [])]

/-- Fixture: the first candidate of `stdW` holds a zero-record document while
the second candidate holds good data. -/
def fsTen : String → Option Val :=
  fun p =>
    if p = "reg/data/s.yaml" then some docE
    else if p = "reg/data/20251030_s.yaml" then some docW else none

/-- C10 witness: the loader returns `None` from the zero-record first
candidate even though the second candidate holds perfectly good data. -/
theorem c10_no_fallthrough_witness :
    loadStandardData fsTen RW "s" = Except.ok (Val.null, RW) :=
  ((c10_no_fallthrough fsTen RW "s" stdW "data/s.yaml"
      (by decide) (by decide) (by decide) (by decide)
      "reg/data/s.yaml" "reg/data/20251030_s.yaml" "reg/data/s.json"
      (by decide)).1) docE (by decide)
    (Or.inr ⟨Val.list [], by decide, by decide⟩)

/-- C3: for the special id `school_boards` (cache miss, known standard, string
manifest path), the two fixed candidate files are checked in priority order —
`data/school_boards_with_acronyms.json`, then `data/20251030_school_boards.json`
— and the loader returns (and caches) the first candidate that both exists and
normalizes to at least one record: a first candidate that exists but
normalizes to zero records falls through to the second, whose data is returned
if non-empty; if neither qualifies, the result is `None` and nothing is
cached. -/
theorem c3_school_resolution (fs : String → Option Val) (R : Registry)
    (standard : Standard) (pathStr : String)
    (hc : cacheLookup R.data_cache "school_boards" = none)
    (hs : getStandard R "school_boards" = some standard)
    (hp : standard.path = Val.str pathStr) :
    (∀ d1 r1, fs (pjoin (pjoin R.root "data") "school_boards_with_acronyms.json") = some d1 →
      getDataRecords d1 = Except.ok r1 → isTruthy r1 = true →
      loadStandardData fs R "school_boards" = Except.ok (d1,
        { R with data_cache := cacheInsert R.data_cache "school_boards" d1 })) ∧
    (∀ d2 r2, fs (pjoin (pjoin R.root "data") "school_boards_with_acronyms.json") = none →
      fs (pjoin (pjoin R.root "data") "20251030_school_boards.json") = some d2 →
      getDataRecords d2 = Except.ok r2 → isTruthy r2 = true →
      loadStandardData fs R "school_boards" = Except.ok (d2,
        { R with data_cache := cacheInsert R.data_cache "school_boards" d2 })) ∧
    (∀ d1 r1 d2 r2,
      fs (pjoin (pjoin R.root "data") "school_boards_with_acronyms.json") = some d1 →
      getDataRecords d1 = Except.ok r1 → isTruthy r1 = false →
      fs (pjoin (pjoin R.root "data") "20251030_school_boards.json") = some d2 →
      getDataRecords d2 = Except.ok r2 → isTruthy r2 = true →
      loadStandardData fs R "school_boards" = Except.ok (d2,
        { R with data_cache := cacheInsert R.data_cache "school_boards" d2 })) ∧
    (fs (pjoin (pjoin R.root "data") "school_boards_with_acronyms.json") = none →
      fs (pjoin (pjoin R.root "data") "20251030_school_boards.json") = none →
      loadStandardData fs R "school_boards" = Except.ok (Val.null, R)) ∧
    (∀ d1 r1,
      fs (pjoin (pjoin R.root "data") "school_boards_with_acronyms.json") = some d1 →
      getDataRecords d1 = Except.ok r1 → isTruthy r1 = false →
      fs (pjoin (pjoin R.root "data") "20251030_school_boards.json") = none →
      loadStandardData fs R "school_boards" = Except.ok (Val.null, R)) := by
  rw [loadStandardData_school fs R standard pathStr hc hs hp]
  refine ⟨?_, ?_, ?_, ?_, ?_⟩
  · intro d1 r1 h1 hrec htr
    simp only [schoolLoop, h1, hrec, htr, bind, Except.bind, if_pos rfl]
    rfl
  · intro d2 r2 h1 h2 hrec htr
    simp only [schoolLoop, h1, h2, hrec, htr, bind, Except.bind, if_pos rfl]
    rfl
  · intro d1 r1 d2 r2 h1 hrec1 htr1 h2 hrec2 htr2
    simp only [schoolLoop, h1, h2, hrec1, hrec2, htr1, htr2, bind, Except.bind]
    rfl
  · intro h1 h2
    simp only [schoolLoop, h1, h2]
    rfl
  · intro d1 r1 h1 hrec htr h2
    simp only [schoolLoop, h1, h2, hrec, htr, bind, Except.bind]
    rfl

/-- Fixture: the `school_boards` standard. -/
def stdSB : Standard :=
  mkStandardD [(Val.str "id", Val.str "school_boards"),
               (Val.str "path", Val.str "data/school_boards.yaml")]

/-- Fixture registry holding only `school_boards`. -/
def RS : Registry :=
  { root := "reg", standards := [(Val.str "school_boards", stdSB)], data_cache := [] }

/-- Fixture: a one-record school-board document. -/
def docSB : Val :=
  Val.dict [(Val.str "data", Val.list [Val.dict [(Val.str "name", Val.str "b1")]])]

/-- Fixture: the first school candidate exists but holds zero records; the
second candidate holds one record. -/
def fsS : String → Option Val :=
  fun p =>
    if p = "reg/data/school_boards_with_acronyms.json" then some docE
    else if p = "reg/data/20251030_school_boards.json" then some docSB else none

/-- C3 witness: the zero-record first candidate is skipped and the second
candidate's data is returned and cached. -/
theorem c3_school_resolution_witness :
    loadStandardData fsS RS "school_boards" = Except.ok (docSB,
      { RS with data_cache := cacheInsert RS.data_cache "school_boards" docSB }) :=
  ((c3_school_resolution fsS RS stdSB "data/school_boards.yaml"
      (by decide) (by decide) (by decide)).2.2.1) docE (Val.list []) docSB
    (Val.list [Val.dict [(Val.str "name", Val.str "b1")]])
    (by decide) (by decide) (by decide) (by decide) (by decide) (by decide)

/-- Key lookup in a document dict (no default). -/
def dLookup (kvs : List (Val × Val)) (k : String) : Option Val :=
  (kvs.find? (fun kv => kv.1 == Val.str k)).map (fun kv => kv.2)

theorem any_eq_find?_isSome {α : Type} (p : α → Bool) :
    ∀ l : List α, l.any p = (l.find? p).isSome := by
  intro l
  induction l with
  | nil => rfl
  | cons a l ih =>
    cases hp : p a with
    | true => simp [List.any_cons, hp, List.find?_cons]
    | false => simp [List.any_cons, hp, List.find?_cons, ih]

theorem getItem_of_dLookup {kvs : List (Val × Val)} {k : String} {v : Val}
    (h : dLookup kvs k = some v) : getItem (Val.dict kvs) k = Except.ok v := by
  simp only [getItem]
  unfold dLookup at h
  cases hf : kvs.find? (fun kv => kv.1 == Val.str k) with
  | none => rw [hf] at h; cases h
  | some kv =>
    rw [hf] at h
    simp at h
    subst h
    rfl

theorem pyContains_dict_some {kvs : List (Val × Val)} {k : String} {v : Val}
    (h : dLookup kvs k = some v) :
    pyContains (Val.dict kvs) (Val.str k) = Except.ok true := by
  simp only [pyContains]
  have ha : kvs.any (fun kv => kv.1 == Val.str k) = true := by
    rw [any_eq_find?_isSome]
    unfold dLookup at h
    cases hf : kvs.find? (fun kv => kv.1 == Val.str k) with
    | none => rw [hf] at h; cases h
    | some kv => rfl
  rw [ha]
  rfl

theorem pyContains_dict_none {kvs : List (Val × Val)} {k : String}
    (h : dLookup kvs k = none) :
    pyContains (Val.dict kvs) (Val.str k) = Except.ok false := by
  simp only [pyContains]
  have ha : kvs.any (fun kv => kv.1 == Val.str k) = false := by
    rw [any_eq_find?_isSome]
    unfold dLookup at h
    cases hf : kvs.find? (fun kv => kv.1 == Val.str k) with
    | none => rfl
    | some kv => rw [hf] at h; cases h
  rw [ha]
  rfl

theorem isTruthy_dict_of_dLookup {kvs : List (Val × Val)} {k : String} {v : Val}
    (h : dLookup kvs k = some v) : isTruthy (Val.dict kvs) = true := by
  cases kvs with
  | nil => cases h
  | cons a l => rfl

theorem dGet_eq_dLookup (kvs : List (Val × Val)) (k : String) (d : Val) :
    dGet kvs k d = (dLookup kvs k).getD d := by
  unfold dGet dLookup
  cases kvs.find? (fun kv => kv.1 == Val.str k) with
  | none => rfl
  | some kv => rfl

/-- C4 counterexample: the document `["data"]` — a truthy non-dict shape — is
claimed to normalize to an empty sequence, but the code raises `TypeError`
when it subscripts the list with the string key (`"data" in ["data"]` is true
in Python, then `["data"]["data"]` raises). -/
theorem c4_counterexample :
    getDataRecords (Val.list [Val.str "data"]) ≠ Except.ok (Val.list []) := by
  decide

/-- C4 (amended): the normalizer tries the three shapes in order — the nested
shape yields the inner list, the flat shape yields its `data` value, the
columnar shape zips each positional record against the ordered field-id list
(an empty field list yielding the empty sequence regardless of the records
value) — and an empty/null document or a dict matching none of the three keys
yields the empty sequence; however, a truthy non-dict document is not
guaranteed an empty sequence: membership probes that hit a non-indexable value
raise a type error (see the counterexample). -/
theorem c4_normalizer_shapes :
    (∀ kvs inner x, dLookup kvs "standard" = some (Val.dict inner) →
      dLookup inner "data" = some x →
      getDataRecords (Val.dict kvs) = Except.ok x) ∧
    (∀ kvs x, dLookup kvs "standard" = none → dLookup kvs "data" = some x →
      getDataRecords (Val.dict kvs) = Except.ok x) ∧
    (∀ kvs fieldItems fids recs out,
      dLookup kvs "standard" = none → dLookup kvs "data" = none →
      dLookup kvs "records" = some (Val.list recs) →
      dLookup kvs "fields" = some (Val.list fieldItems) →
      mapME (fun f => getItem f "id") fieldItems = Except.ok fids →
      fids ≠ [] →
      mapME (fun record => do
          let ri ← pyIter record
          mkDict (List.zip fids ri)) recs = Except.ok out →
      getDataRecords (Val.dict kvs) = Except.ok (Val.list out)) ∧
    (∀ kvs recsv,
      dLookup kvs "standard" = none → dLookup kvs "data" = none →
      dLookup kvs "records" = some recsv →
      (dLookup kvs "fields" = some (Val.list []) ∨ dLookup kvs "fields" = none) →
      getDataRecords (Val.dict kvs) = Except.ok (Val.list [])) ∧
    (∀ d, isTruthy d = false → getDataRecords d = Except.ok (Val.list [])) ∧
    (∀ kvs, dLookup kvs "standard" = none → dLookup kvs "data" = none →
      dLookup kvs "records" = none →
      getDataRecords (Val.dict kvs) = Except.ok (Val.list [])) ∧
    getDataRecords
      (Val.dict [(Val.str "fields",
          Val.list [Val.dict [(Val.str "id", Val.str "a")],
                    Val.dict [(Val.str "id", Val.str "b")]]),
        (Val.str "records",
          Val.list [Val.list [Val.int 1, Val.str "x"],
                    Val.list [Val.int 2, Val.str "y"]])]) =
      Except.ok (Val.list
        [Val.dict [(Val.str "a", Val.int 1), (Val.str "b", Val.str "x")],
         Val.dict [(Val.str "a", Val.int 2), (Val.str "b", Val.str "y")]]) := by
  refine ⟨?_, ?_, ?_, ?_, ?_, ?_, by decide⟩
  · intro kvs inner x h1 h2
    have ht := isTruthy_dict_of_dLookup h1
    simp only [getDataRecords, ht, pyContains_dict_some h1, getItem_of_dLookup h1,
      pyContains_dict_some h2, getItem_of_dLookup h2, bind, Except.bind, pure,
      Except.pure]
    rfl
  · intro kvs x h1 h2
    have ht := isTruthy_dict_of_dLookup h2
    simp only [getDataRecords, ht, pyContains_dict_none h1,
      pyContains_dict_some h2, getItem_of_dLookup h2, bind, Except.bind, pure,
      Except.pure]
    rfl
  · intro kvs fieldItems fids recs out h1 h2 h3 h4 hfid hne hout
    have ht := isTruthy_dict_of_dLookup h3
    have hget : dictGet (Val.dict kvs) "fields" (Val.list []) =
        Except.ok (Val.list fieldItems) := by
      simp only [dictGet]
      rw [dGet_eq_dLookup, h4]
      rfl
    have hfe : fids.isEmpty = false := by
      cases fids with
      | nil => cases hne rfl
      | cons a l => rfl
    have hfi : pyIter (Val.list fieldItems) = Except.ok fieldItems := rfl
    have hri : pyIter (Val.list recs) = Except.ok recs := rfl
    simp only [bind, Except.bind] at hout
    simp only [getDataRecords, ht, pyContains_dict_none h1,
      pyContains_dict_none h2, pyContains_dict_some h3, getItem_of_dLookup h3,
      hget, hfid, hfe, hfi, hri, bind, Except.bind, pure, Except.pure]
    rw [hout]
    simp
  · intro kvs recsv h1 h2 h3 h4
    have ht := isTruthy_dict_of_dLookup h3
    have hget : dictGet (Val.dict kvs) "fields" (Val.list []) =
        Except.ok (Val.list []) := by
      simp only [dictGet]
      rw [dGet_eq_dLookup]
      rcases h4 with h4 | h4
      · rw [h4]
        rfl
      · rw [h4]
        rfl
    simp only [getDataRecords, ht, pyContains_dict_none h1,
      pyContains_dict_none h2, pyContains_dict_some h3, hget, pyIter, mapME,
      bind, Except.bind, pure, Except.pure]
    rfl
  · intro d hf
    exact getDataRecords_falsy hf
  · intro kvs h1 h2 h3
    cases hkvs : kvs with
    | nil => rfl
    | cons a l =>
      have ht : isTruthy (Val.dict (a :: l)) = true := rfl
      rw [hkvs] at h1 h2 h3
      simp only [getDataRecords, ht, pyContains_dict_none h1,
        pyContains_dict_none h2, pyContains_dict_none h3, bind, Except.bind,
        pure, Except.pure]
      rfl

/-- C4 witness: the nested shape on a concrete document. -/
theorem c4_normalizer_shapes_witness :
    getDataRecords (Val.dict [(Val.str "standard",
        Val.dict [(Val.str "data", Val.list [Val.int 7])])]) =
      Except.ok (Val.list [Val.int 7]) :=
  c4_normalizer_shapes.1 [(Val.str "standard",
      Val.dict [(Val.str "data", Val.list [Val.int 7])])]
    [(Val.str "data", Val.list [Val.int 7])] (Val.list [Val.int 7])
    (by decide) (by decide)

/-- First-occurrence key order: the key sequence a Python dict ends up with
after inserting the given keys in order. -/
def firstOccurrences (l : List Val) : List Val :=
  l.foldl (fun acc x => if acc.any (fun y => y == x) then acc else acc ++ [x]) []

theorem find?_map_overwrite_ne {α β : Type} [DecidableEq α] (k k2 : α) (v : β)
    (hne : ¬k = k2) :
    ∀ c : List (α × β),
      (c.map (fun p => if p.1 == k then (p.1, v) else p)).find? (fun p => p.1 == k2) =
        c.find? (fun p => p.1 == k2) := by
  intro c
  induction c with
  | nil => rfl
  | cons q c ih =>
    by_cases hq : (q.1 == k) = true
    · have hqk : q.1 = k := of_decide_eq_true hq
      have hq2 : (q.1 == k2) = false :=
        decide_eq_false (fun hh => hne (hqk ▸ hh))
      simp only [List.map_cons, if_pos hq, List.find?_cons]
      simp only [hq2]
      exact ih
    · simp only [List.map_cons, if_neg hq, List.find?_cons]
      cases hp2 : (q.1 == k2) with
      | true => rfl
      | false => exact ih

theorem find?_pyInsert_ne {α β : Type} [DecidableEq α] (c : List (α × β)) (k k2 : α)
    (v : β) (hne : ¬k = k2) :
    ((if c.any (fun p => p.1 == k) then
        c.map (fun p => if p.1 == k then (p.1, v) else p)
      else c ++ [(k, v)]).find? (fun p => p.1 == k2)) =
      c.find? (fun p => p.1 == k2) := by
  by_cases hany : c.any (fun p => p.1 == k) = true
  · rw [if_pos hany]
    exact find?_map_overwrite_ne k k2 v hne c
  · rw [if_neg hany, List.find?_append]
    have h2 : List.find? (fun p => p.1 == k2) [(k, v)] = none := by
      simp only [List.find?_cons]
      rw [show ((k, v).1 == k2) = false from decide_eq_false hne]
      rfl
    rw [h2]
    cases c.find? (fun p => p.1 == k2) <;> rfl

theorem map_fst_pyInsert {α β : Type} [DecidableEq α] (c : List (α × β)) (k : α) (v : β) :
    ((if c.any (fun p => p.1 == k) then
        c.map (fun p => if p.1 == k then (p.1, v) else p)
      else c ++ [(k, v)]).map (fun p => p.1)) =
      (if c.any (fun p => p.1 == k) then c.map (fun p => p.1)
       else c.map (fun p => p.1) ++ [k]) := by
  by_cases hany : c.any (fun p => p.1 == k) = true
  · rw [if_pos hany, if_pos hany, List.map_map]
    apply List.map_congr_left
    intro p _
    by_cases hp : (p.1 == k) = true
    · simp [Function.comp, hp]
    · simp [Function.comp, hp]
  · rw [if_neg hany, if_neg hany, List.map_append]
    rfl

theorem registryFromEntries_append (entries : List (List (Val × Val)))
    (e : List (Val × Val)) :
    registryFromEntries (entries ++ [e]) =
      stdInsert (registryFromEntries entries) (mkStandardD e).id (mkStandardD e) := by
  unfold registryFromEntries
  rw [List.foldl_append]
  rfl

theorem getStandard_mk (root : String) (m : List (Val × Standard))
    (cache : List (String × Val)) (sid : String) :
    getStandard (Registry.mk root m cache) sid =
      (m.find? (fun p => p.1 == Val.str sid)).map (fun p => p.2) := by
  unfold getStandard
  cases m.find? (fun p => p.1 == Val.str sid) with
  | none => rfl
  | some p => rfl

/-- Last-wins: looking a string id up in the mapping built from the manifest
entries finds the `Standard` of the *last* entry carrying that id. -/
theorem registryFromEntries_getStandard (entries : List (List (Val × Val)))
    (root : String) (cache : List (String × Val)) (sid : String) :
    getStandard (Registry.mk root (registryFromEntries entries) cache) sid =
      ((entries.filter (fun e => (mkStandardD e).id == Val.str sid)).getLast?).map
        mkStandardD := by
  induction entries using List.reverseRecOn with
  | nil => rfl
  | append_singleton l e ih =>
    rw [registryFromEntries_append, getStandard_mk, List.filter_append]
    by_cases he : ((mkStandardD e).id == Val.str sid) = true
    · have heq : (mkStandardD e).id = Val.str sid := of_decide_eq_true he
      rw [heq]
      unfold stdInsert
      rw [find?_snd_pyInsert (registryFromEntries l) (Val.str sid) (mkStandardD e)]
      have hfe : List.filter (fun e2 => (mkStandardD e2).id == Val.str sid) [e] = [e] := by
        simp [List.filter_cons, he]
      rw [hfe, List.getLast?_concat]
      rfl
    · have hne : ¬(mkStandardD e).id = Val.str sid := by
        intro hh
        rw [show ((mkStandardD e).id == Val.str sid) = true from decide_eq_true hh] at he
        exact he rfl
      unfold stdInsert
      rw [find?_pyInsert_ne (registryFromEntries l) (mkStandardD e).id (Val.str sid)
        (mkStandardD e) hne]
      have hfe : List.filter (fun e2 => (mkStandardD e2).id == Val.str sid) [e] = [] := by
        simp only [List.filter_cons]
        cases hx : ((mkStandardD e).id == Val.str sid) with
        | true => exact absurd hx he
        | false => rfl
      rw [hfe, List.append_nil]
      rw [getStandard_mk] at ih
      exact ih

/-- Every stored pair's key is exactly its standard's id field. -/
theorem registryFromEntries_fst_eq_id :
    ∀ entries : List (List (Val × Val)), ∀ p ∈ registryFromEntries entries,
      p.1 = p.2.id := by
  intro entries
  induction entries using List.reverseRecOn with
  | nil => intro p hp; cases hp
  | append_singleton l e ih =>
    intro p hp
    rw [registryFromEntries_append] at hp
    unfold stdInsert at hp
    by_cases hany : (registryFromEntries l).any
        (fun q => q.1 == (mkStandardD e).id) = true
    · rw [if_pos hany] at hp
      obtain ⟨q, hq, hfq⟩ := List.mem_map.mp hp
      by_cases hqk : (q.1 == (mkStandardD e).id) = true
      · rw [if_pos hqk] at hfq
        rw [← hfq]
        exact of_decide_eq_true hqk
      · rw [if_neg hqk] at hfq
        rw [← hfq]
        exact ih q hq
    · rw [if_neg hany] at hp
      rcases List.mem_append.mp hp with h | h
      · exact ih p h
      · have : p = ((mkStandardD e).id, mkStandardD e) := by
          cases h with
          | head => rfl
          | tail _ hh => cases hh
        rw [this]

/-- The key sequence of the built mapping is the first-occurrence order of the
manifest entry ids. -/
theorem any_map_fst {β : Type} (k : Val) :
    ∀ m : List (Val × β), (m.map (fun p => p.1)).any (fun y => y == k) =
      m.any (fun p => p.1 == k) := by
  intro m
  induction m with
  | nil => rfl
  | cons q m ih => simp only [List.map_cons, List.any_cons, ih]

theorem registryFromEntries_ids (entries : List (List (Val × Val))) :
    (registryFromEntries entries).map (fun p => p.1) =
      firstOccurrences (entries.map (fun e => (mkStandardD e).id)) := by
  induction entries using List.reverseRecOn with
  | nil => rfl
  | append_singleton l e ih =>
    have hR : firstOccurrences ((l ++ [e]).map (fun e2 => (mkStandardD e2).id)) =
        (if (firstOccurrences (l.map (fun e2 => (mkStandardD e2).id))).any
            (fun y => y == (mkStandardD e).id) then
          firstOccurrences (l.map (fun e2 => (mkStandardD e2).id))
        else firstOccurrences (l.map (fun e2 => (mkStandardD e2).id)) ++
          [(mkStandardD e).id]) := by
      unfold firstOccurrences
      rw [List.map_append, List.foldl_append]
      rfl
    have hany_eq : (registryFromEntries l).any
        (fun p => p.1 == (mkStandardD e).id) =
        (firstOccurrences (l.map (fun e2 => (mkStandardD e2).id))).any
          (fun y => y == (mkStandardD e).id) := by
      rw [← ih, any_map_fst]
    rw [registryFromEntries_append]
    unfold stdInsert
    rw [map_fst_pyInsert, hR, ih, hany_eq]

/-- The effectful registry fold equals the pure fold when every id is
hashable. -/
theorem foldlM_registry_entries (entries : List (List (Val × Val))) :
    ∀ m : List (Val × Standard),
      (∀ e ∈ entries, hashable (mkStandardD e).id = true) →
      (entries.map Val.dict).foldlM
        (fun m2 item => do
          let s ← mkStandard item
          if hashable s.id then pure (stdInsert m2 s.id s) else throw "TypeError")
        m =
      Except.ok (entries.foldl
        (fun m2 kvs => stdInsert m2 (mkStandardD kvs).id (mkStandardD kvs)) m) := by
  induction entries with
  | nil => intro m _; rfl
  | cons e es ih =>
    intro m hall
    have hh := hall e (List.mem_cons_self e es)
    rw [List.map_cons, List.foldlM_cons, List.foldl_cons]
    simp only [mkStandard, bind, Except.bind, pure, Except.pure, hh, if_true]
    exact ih (stdInsert m (mkStandardD e).id (mkStandardD e))
      (fun x hx => hall x (List.mem_cons_of_mem e hx))

/-- `_load_registry` on a well-formed manifest document builds exactly the
pure fold of the entries. -/
theorem loadRegistryDoc_entries (entries : List (List (Val × Val)))
    (hhash : ∀ e ∈ entries, hashable (mkStandardD e).id = true) :
    loadRegistryDoc (Val.dict [(Val.str "registry", Val.list (entries.map Val.dict))]) =
      Except.ok (registryFromEntries entries) := by
  have h1 : dictGet (Val.dict [(Val.str "registry", Val.list (entries.map Val.dict))])
      "registry" (Val.list []) = Except.ok (Val.list (entries.map Val.dict)) := rfl
  simp only [loadRegistryDoc, h1, pyIter, bind, Except.bind, pure, Except.pure]
  exact foldlM_registry_entries entries [] hhash

/-- C8: duplicate manifest ids are resolved last-wins — `get_standard` returns
the `Standard` of the last entry with the looked-up id — while the winning
entry keeps the first-occurrence position, so `list_standards` preserves
manifest insertion order of ids; `_load_registry` builds exactly this mapping
from the parsed manifest document, and every missing entry field defaults
(empty string, `None` for source, `[]` for tags). -/
theorem c8_manifest_last_wins (entries : List (List (Val × Val))) :
    ((∀ e ∈ entries, hashable (mkStandardD e).id = true) →
      loadRegistryDoc (Val.dict [(Val.str "registry",
          Val.list (entries.map Val.dict))]) =
        Except.ok (registryFromEntries entries)) ∧
    (∀ root cache sid,
      getStandard (Registry.mk root (registryFromEntries entries) cache) sid =
        ((entries.filter (fun e => (mkStandardD e).id == Val.str sid)).getLast?).map
          mkStandardD) ∧
    (∀ root cache,
      (listStandards (Registry.mk root (registryFromEntries entries) cache)).map
          (fun s => s.id) =
        firstOccurrences (entries.map (fun e => (mkStandardD e).id))) ∧
    mkStandardD [] = Standard.mk (Val.str "") (Val.str "") (Val.str "") (Val.str "")
      (Val.str "") (Val.str "") (Val.str "") Val.null (Val.list []) := by
  refine ⟨loadRegistryDoc_entries entries,
    registryFromEntries_getStandard entries, ?_, rfl⟩
  intro root cache
  unfold listStandards
  rw [List.map_map]
  have hkey : (registryFromEntries entries).map ((fun s => s.id) ∘ (fun p => p.2)) =
      (registryFromEntries entries).map (fun p => p.1) := by
    apply List.map_congr_left
    intro p hp
    exact (registryFromEntries_fst_eq_id entries p hp).symm
  rw [hkey, registryFromEntries_ids]

/-- Fixture: a manifest with a duplicate id `x` (titles `A` then `B`) around an
entry with id `y`. -/
def entriesC8 : List (List (Val × Val)) :=
  [[(Val.str "id", Val.str "x"), (Val.str "title", Val.str "A")],
   [(Val.str "id", Val.str "y")],
   [(Val.str "id", Val.str "x"), (Val.str "title", Val.str "B")]]

/-- C8 witness: on the duplicate-id fixture, lookup of `x` yields the later
entry (title `B`) and the listed id order is `[x, y]`. -/
theorem c8_manifest_last_wins_witness :
    getStandard (Registry.mk "r" (registryFromEntries entriesC8) []) "x" =
      some (mkStandardD [(Val.str "id", Val.str "x"),
        (Val.str "title", Val.str "B")]) ∧
    (listStandards (Registry.mk "r" (registryFromEntries entriesC8) [])).map
        (fun s => s.id) = [Val.str "x", Val.str "y"] := by
  constructor
  · rw [(c8_manifest_last_wins entriesC8).2.1 "r" [] "x"]
    decide
  · rw [(c8_manifest_last_wins entriesC8).2.2.1 "r" []]
    decide
